import Mathlib

/-!
Verification of the video-conversion job service (`src/app.py`, `src/config.py`)
against its natural-language specification.

The Python source is shallowly embedded: the background job
`process_video_task` is modelled as a function from an environment (the
outcomes of the external world: filesystem checks, archive extraction, the
spawned program) to the list of observable events it performs, in order.
Status persistence (`save_task_status`) is modelled with explicit time
passing; the ingest handler (`process_video`) as a function from form data to
a result plus the list of side effects it performs.  Filenames and file
contents are plain strings; wall-clock instants are naturals (seconds).
-/

/-- Python `str.endswith` (case-sensitive suffix match), computed on the
character list so that it evaluates by kernel reduction. -/
def endswith (s suf : String) : Bool :=
  suf.data.isSuffixOf s.data

/-- Lexicographic code-point comparison of character lists, as Python compares
strings. -/
def charsLe : List Char → List Char → Bool
  | [], _ => true
  | _ :: _, [] => false
  | a :: as, b :: bs =>
    if a.val.toNat < b.val.toNat then true
    else if b.val.toNat < a.val.toNat then false
    else charsLe as bs

/-- String comparison used by Python `sorted` on strings. -/
def strLe (a b : String) : Bool := charsLe a.data b.data

/-- Insert into a sorted list, keeping earlier-or-equal elements first. -/
def insertLe (x : String) : List String → List String
  | [] => [x]
  | y :: ys => if strLe x y then x :: y :: ys else y :: insertLe x ys

/-- Python `sorted` on a list of strings (insertion sort; only the multiset of
elements matters to the claims, never the order). -/
def pySorted : List String → List String
  | [] => []
  | x :: xs => insertLe x (pySorted xs)

theorem length_insertLe (x : String) (l : List String) :
    (insertLe x l).length = l.length + 1 := by
  induction l with
  | nil => rfl
  | cons y ys ih =>
    simp only [insertLe]
    split
    · simp
    · simp [ih]

theorem length_pySorted (l : List String) : (pySorted l).length = l.length := by
  induction l with
  | nil => rfl
  | cons x xs ih => simp [pySorted, length_insertLe, ih]

/-- Python `int(s)` digit run: decimal digits, single underscores allowed only
between digits. -/
def pyDigitsRest (acc : Nat) : List Char → Option Nat
  | [] => some acc
  | '_' :: c :: cs =>
    if c.isDigit then pyDigitsRest (acc * 10 + (c.toNat - 48)) cs else none
  | ['_'] => none
  | c :: cs =>
    if c.isDigit then pyDigitsRest (acc * 10 + (c.toNat - 48)) cs else none

/-- Parse a nonempty unsigned decimal literal as Python `int` does. -/
def pyUnsigned : List Char → Option Nat
  | [] => none
  | c :: cs => if c.isDigit then pyDigitsRest (c.toNat - 48) cs else none

/-- Characters Python `int(str)` strips from both ends. -/
def pySpace (c : Char) : Bool :=
  c = ' ' ∨ c = '\t' ∨ c = '\n' ∨ c = '\r' ∨ c = '\x0b' ∨ c = '\x0c'

/-- Python `int(s)`: strip whitespace, optional sign, decimal digits; `none`
models the `ValueError` that the bare `except` in `process_video` catches. -/
def pyInt (s : String) : Option Int :=
  match (s.data.dropWhile pySpace).reverse.dropWhile pySpace |>.reverse with
  | '+' :: rest => (pyUnsigned rest).map Int.ofNat
  | '-' :: rest => (pyUnsigned rest).map (fun n => -(Int.ofNat n))
  | rest => (pyUnsigned rest).map Int.ofNat

/-- Service configuration (`src/config.py`, class `Settings`), restricted to
the fields the modelled code paths read. -/
structure Config where
  TEMP_DIR : String := "./temp"
  OUTPUT_DIR : String := "./output"
  SCRIPT_PATH : String := "./process_all.sh"
  FILE_RETENTION_HOURS : Nat := 1
deriving DecidableEq, Repr

/-- Default configuration values from `src/config.py`. -/
def cfgDefault : Config := {}

/-- Job status values (`pending`, `processing`, `success`, `failed`). -/
inductive Status
  | pending
  | processing
  | success
  | failed
deriving DecidableEq, Repr

/-- A record stored by `save_task_status`: the dict
`{"task_id", "status", "created_at", **kwargs}` restricted to the fields the
claims are about.  Crucially, `created_at` is `datetime.now().isoformat()`
evaluated at the time of the write, so the model takes the write time as an
argument. -/
structure StatusRecord where
  task_id : String
  status : Status
  created_at : Nat
deriving DecidableEq, Repr

/-- What Redis holds for a task key after `save_task_status`: the serialized
record plus the absolute expiry instant set by `EXPIRE key ttl_seconds` with
`ttl_seconds = (FILE_RETENTION_HOURS + 1) * 3600`. -/
structure RedisEntry where
  value : StatusRecord
  expiry : Nat
deriving DecidableEq, Repr

/-- One call of `save_task_status` at wall-clock instant `now`: builds the
fresh record (re-stamping `created_at` with `now`) and resets the TTL. -/
def save_task_status (cfg : Config) (now : Nat) (task_id : String)
    (status : Status) : RedisEntry :=
  { value := { task_id := task_id, status := status, created_at := now }
    expiry := now + (cfg.FILE_RETENTION_HOURS + 1) * 3600 }

/-- The Redis state for one task key after a sequence of
`save_task_status` calls, each given as (instant, status).  Each call
overwrites the previous record (`SET`) and resets the expiry (`EXPIRE`). -/
def runStatusWrites (cfg : Config) (task_id : String)
    (writes : List (Nat × Status)) : Option RedisEntry :=
  writes.foldl (fun _ w => some (save_task_status cfg w.1 task_id w.2)) none

/-- One entry of the uploaded ZIP archive: its path inside the archive (split
into components), its byte content, and whether it is a directory entry. -/
structure ZipEntry where
  path : List String
  content : String
  isDir : Bool
deriving DecidableEq, Repr

/-- Nonempty path prefixes of an archive entry path: extracting `a/b/c`
materializes directory `a`, directory `a/b` and file `a/b/c`. -/
def pathsMade : List String → List (List String)
  | [] => []
  | a :: rest => [a] :: (pathsMade rest).map (fun p => a :: p)

/-- All filesystem paths (relative to the working directory) that
`zip_ref.extractall(work_dir)` materializes. -/
def extractedPaths (entries : List ZipEntry) : List (List String) :=
  entries.flatMap (fun e => pathsMade e.path)

/-- Model of `os.listdir` on a set of relative paths: the distinct names of
depth-one paths.  Entries nested below a subdirectory are not listed. -/
def listdirFS (paths : List (List String)) : List String :=
  (paths.filterMap (fun p => match p with
    | [n] => some n
    | _ => none)).dedup

/-- The paths present in the working directory when `process_video_task` runs
`os.listdir(work_dir)`: `music.mp3` was written there at ingest, then the
archive was extracted on top. -/
def stagedPaths (entries : List ZipEntry) : List (List String) :=
  ["music.mp3"] :: extractedPaths entries

/-- Model of `all_files = os.listdir(work_dir)` after extraction. -/
def listdirWork (entries : List ZipEntry) : List String :=
  listdirFS (stagedPaths entries)

/-- Model of `mp4_files = sorted([f for f in all_files if f.endswith(".mp4")])`. -/
def mp4_files (entries : List ZipEntry) : List String :=
  pySorted ((listdirWork entries).filter (fun f => endswith f ".mp4"))

/-- Model of `num_files = len(mp4_files)`. -/
def num_files (entries : List ZipEntry) : Nat :=
  (mp4_files entries).length

/-- Spec-side count for claim C9, written from the claim text rather than the
code: the number of distinct top-level entry names of the archive that end in
`.mp4` (nested entries ignored; directories not excluded). -/
def qualifyingTopLevelCount (entries : List ZipEntry) : Nat :=
  (((entries.filterMap (fun e => e.path.head?)).dedup).filter
    (fun n => endswith n ".mp4")).length

/-- Message of the re-affirming `processing` writes. -/
inductive ProcMsg
  | unpacking
  | processingFiles (n : Nat)
deriving DecidableEq, Repr

/-- Structured content of each distinct `failed`-status error message built by
`process_video_task`, one constructor per f-string in the source, carrying the
interpolated data. -/
inductive FailMsg
  | zipNotFound (zip_path : String)
  | extractError (exc : String)
  | noMp4Files
  | musicNotFound (music_path : String)
  | scriptNotFound (script_path : String)
  | scriptNotExecutable (script_path : String)
  | processError (code : Int) (msg : String)
  | resultNotCreated (files_in_workdir : List String)
  | internalError (msg : String) (details : String)
deriving DecidableEq, Repr

/-- Observable events of one job run, in program order: status writes to
Redis, the two ingest file writes, archive extraction, spawning the external
program, the webhook call, scheduling deferred deletion of the output, and
the two cleanup removals from the `finally` block. -/
inductive Event
  | saveZip
  | saveMusic (content : String)
  | writePending
  | writeProcessing (msg : ProcMsg)
  | writeFailed (msg : FailMsg)
  | writeSuccess (output_file : String) (file_size : Nat)
  | extract
  | spawn (n : Nat) (music_path : String) (fade : Int)
  | webhook
  | scheduleDeletion (path : String) (hours : Nat)
  | removeWorkDir
  | removeZip
deriving DecidableEq, Repr

/-- Points in the `try` block of `process_video_task` at which an unexpected
exception (one not matched by a dedicated check) can be raised; the
surrounding `except Exception` then writes the diagnostic `failed` status. -/
inductive CrashSite
  | atListdir
  | atSpawn
  | atCommunicate
  | atMove
  | atGetsize
deriving DecidableEq, Repr

/-- Arguments of `process_video_task(task_id, zip_path, music_path,
fade_duration, work_dir)`. -/
structure TaskArgs where
  task_id : String
  zip_path : String
  music_path : String
  fade_duration : Int
  work_dir : String
deriving DecidableEq, Repr

/-- Environment of one run of `process_video_task`: every answer the outside
world gives the function.  `stderr = ""` models empty captured stderr;
`crash` injects an uncaught exception at the given site with the given
diagnostic text. -/
structure TaskEnv where
  zipExists : Bool
  extractOk : Bool
  extractExc : String
  entries : List ZipEntry
  musicExists : Bool
  scriptExists : Bool
  scriptExecutable : Bool
  crash : Option CrashSite
  crashMsg : String
  crashDetails : String
  returncode : Int
  stderr : String
  resultExists : Bool
  filesAfterRun : List String
  resultSize : Nat
deriving DecidableEq, Repr

/-- Events of the `except Exception` handler: the diagnostic terminal write
with `error=str(e)` and `details=traceback.format_exc()`. -/
def crashHandler (env : TaskEnv) : List Event :=
  [ .writeFailed (.internalError env.crashMsg env.crashDetails) ]

/-- Events of the `try`/`except` part of `process_video_task`, mirroring its
control flow statement by statement; each early `return` after a `failed`
write ends the list. -/
def tryBody (cfg : Config) (a : TaskArgs) (env : TaskEnv) : List Event :=
  .writeProcessing .unpacking ::
  (if ¬ env.zipExists then [ .writeFailed (.zipNotFound a.zip_path) ]
   else if ¬ env.extractOk then [ .writeFailed (.extractError env.extractExc) ]
   else .extract ::
    (if env.crash = some .atListdir then crashHandler env
     else
      if num_files env.entries = 0 then [ .writeFailed .noMp4Files ]
      else if ¬ env.musicExists then [ .writeFailed (.musicNotFound a.music_path) ]
      else .writeProcessing (.processingFiles (num_files env.entries)) ::
        (if ¬ env.scriptExists then [ .writeFailed (.scriptNotFound cfg.SCRIPT_PATH) ]
         else if ¬ env.scriptExecutable then [ .writeFailed (.scriptNotExecutable cfg.SCRIPT_PATH) ]
         else if env.crash = some .atSpawn then crashHandler env
         else .spawn (num_files env.entries) a.music_path a.fade_duration ::
           (if env.crash = some .atCommunicate then crashHandler env
            else if env.returncode ≠ 0 then
              [ .writeFailed (.processError env.returncode
                  (if env.stderr ≠ "" then env.stderr else "Неизвестная ошибка")) ]
            else if ¬ env.resultExists then
              [ .writeFailed (.resultNotCreated env.filesAfterRun) ]
            else if env.crash = some .atMove then crashHandler env
            else if env.crash = some .atGetsize then crashHandler env
            else [ .writeSuccess (a.task_id ++ ".mp4") env.resultSize,
                   .webhook,
                   .scheduleDeletion (cfg.OUTPUT_DIR ++ "/" ++ a.task_id ++ ".mp4")
                     cfg.FILE_RETENTION_HOURS ]))))

/-- Events of the `finally` block: remove the working directory and, when it
still exists, the staged ZIP archive (both removals are attempted on every
path; filesystem removal is modelled as succeeding). -/
def finallyPart (env : TaskEnv) : List Event :=
  [ .removeWorkDir ] ++ (if env.zipExists then [ .removeZip ] else [])

/-- The full event trace of one `process_video_task` run. -/
def process_video_task (cfg : Config) (a : TaskArgs) (env : TaskEnv) :
    List Event :=
  tryBody cfg a env ++ finallyPart env

/-- The whole job run as one trace: the ingest handler saves the archive,
writes `music.mp3` into the working directory, persists the `pending` status,
and schedules `process_video_task`. -/
def jobTrace (cfg : Config) (a : TaskArgs) (env : TaskEnv)
    (musicContent : String) : List Event :=
  [ .saveZip, .saveMusic musicContent, .writePending ] ++
    process_video_task cfg a env

/-- Whether an event is a terminal status write (`failed` or `success`). -/
def isTerminalWrite : Event → Bool
  | .writeFailed _ => true
  | .writeSuccess _ _ => true
  | _ => false

/-- Working-directory existence after a trace: it exists when the task starts
(created at ingest) and only `removeWorkDir` removes it. -/
def workDirExistsAfter (events : List Event) : Bool :=
  events.foldl (fun b e => match e with
    | .removeWorkDir => false
    | _ => b) true

/-- Staged-archive existence after a trace, starting from `zip0`. -/
def zipExistsAfter (zip0 : Bool) (events : List Event) : Bool :=
  events.foldl (fun b e => match e with
    | .removeZip => false
    | .saveZip => true
    | _ => b) zip0

/-- An uploaded multipart file as `process_video` sees it. -/
structure UploadFile where
  filename : String
deriving DecidableEq, Repr

/-- The multipart form of a `/process-video` request: `form.get("video")`,
`form.get("audio")` and `form.get("fade_duration", "3")` (the raw string
field, `none` when absent). -/
structure FormData where
  video : Option UploadFile
  audio : Option UploadFile
  fade_duration : Option String
deriving DecidableEq, Repr

/-- Side effects the ingest handler performs once validation has passed, in
program order. -/
inductive IngestEffect
  | createTaskId
  | makeWorkDir
  | saveZipFile
  | saveMusicFile
  | savePendingStatus
  | scheduleBackgroundTask (fade : Int)
deriving DecidableEq, Repr

/-- Outcome of the ingest call: an `HTTPException(status_code, detail)` raised
before any job exists, or the 202 response carrying the new job. -/
inductive IngestResult
  | rejected (statusCode : Nat) (detail : String)
  | accepted
deriving DecidableEq, Repr

/-- Model of the `/process-video` handler `process_video`: validation in
source order, then the job-creating side effects.  A rejection raises before
`task_id = str(uuid.uuid4())`, so its effect list is empty. -/
def process_video (form : FormData) : IngestResult × List IngestEffect :=
  match form.video with
  | none => (.rejected 400 "Не загружен файл video", [])
  | some video =>
    match form.audio with
    | none => (.rejected 400 "Не загружен файл audio", [])
    | some audio =>
      if ¬ endswith video.filename ".zip" then
        (.rejected 400 "Файл video должен быть ZIP архивом", [])
      else if ¬ endswith audio.filename ".mp3" then
        (.rejected 400 "Файл audio должен быть в формате MP3", [])
      else
        let fade : Int := (pyInt (form.fade_duration.getD "3")).getD 3
        if fade < 0 ∨ 10 < fade then
          (.rejected 400 "Длительность затухания должна быть от 0 до 10 секунд", [])
        else
          (.accepted,
            [ .createTaskId, .makeWorkDir, .saveZipFile, .saveMusicFile,
              .savePendingStatus, .scheduleBackgroundTask fade ])

/-- The file writes extraction performs, in archive order: every non-directory
entry writes its content at its path. -/
def fileWrites (entries : List ZipEntry) : List (List String × String) :=
  entries.filterMap (fun e => if e.isDir then none else some (e.path, e.content))

/-- Content found at path `p` under the working directory once staging is
complete: the ingest handler first writes the uploaded music to `music.mp3`,
then extraction writes each archive entry, later writes overwriting earlier
ones. -/
def stagedContentAt (musicUpload : String) (entries : List ZipEntry)
    (p : List String) : Option String :=
  ((["music.mp3"], musicUpload) :: fileWrites entries).foldl
    (fun acc w => if w.1 = p then some w.2 else acc) none

/-- Content the archive itself supplies at top-level name `name` (last entry
wins), written from the claim text for C10. -/
def archiveTopContent (entries : List ZipEntry) (name : String) : Option String :=
  (fileWrites entries).foldl
    (fun acc w => if w.1 = [name] then some w.2 else acc) none

/-- Helper selector used to characterize `listdirFS`: keeps depth-one paths. -/
def topName : List String → Option String
  | [n] => some n
  | _ => none

theorem listdirFS_eq_topName (paths : List (List String)) :
    listdirFS paths = (paths.filterMap topName).dedup := by
  unfold listdirFS
  congr 1

theorem pathsMade_ne_nil (p : List String) : ∀ q ∈ pathsMade p, q ≠ [] := by
  induction p with
  | nil => intro q hq; cases hq
  | cons a rest ih =>
    intro q hq
    simp only [pathsMade, List.mem_cons, List.mem_map] at hq
    rcases hq with rfl | ⟨r, _, rfl⟩ <;> simp

theorem filterMap_topName_map_cons (a : String) (l : List (List String))
    (h : ∀ q ∈ l, q ≠ []) :
    (l.map (fun p => a :: p)).filterMap topName = [] := by
  induction l with
  | nil => rfl
  | cons q l ih =>
    have hq : q ≠ [] := h q (by simp)
    cases q with
    | nil => exact absurd rfl hq
    | cons b bs =>
      simp only [List.map_cons, List.filterMap_cons]
      have : topName (a :: b :: bs) = none := rfl
      rw [this]
      exact ih (fun r hr => h r (by simp [hr]))

theorem filterMap_topName_pathsMade (p : List String) :
    (pathsMade p).filterMap topName = p.head?.toList := by
  cases p with
  | nil => rfl
  | cons a rest =>
    simp only [pathsMade, List.filterMap_cons]
    have : topName [a] = some a := rfl
    rw [this, filterMap_topName_map_cons a _ (pathsMade_ne_nil rest)]
    rfl

theorem extractedPaths_topNames (entries : List ZipEntry) :
    (extractedPaths entries).filterMap topName =
      entries.filterMap (fun e => e.path.head?) := by
  induction entries with
  | nil => rfl
  | cons e es ih =>
    simp only [extractedPaths, List.flatMap_cons, List.filterMap_append] at *
    rw [filterMap_topName_pathsMade, ih, List.filterMap_cons]
    cases hp : e.path with
    | nil => simp
    | cons x xs => simp

/-- The working-directory listing after staging is `music.mp3` together with
the distinct top-level names of the archive entries. -/
theorem listdirWork_eq (entries : List ZipEntry) :
    listdirWork entries =
      ("music.mp3" :: entries.filterMap (fun e => e.path.head?)).dedup := by
  unfold listdirWork stagedPaths
  rw [listdirFS_eq_topName, List.filterMap_cons]
  have : topName ["music.mp3"] = some "music.mp3" := rfl
  rw [this, extractedPaths_topNames]

theorem num_files_eq (entries : List ZipEntry) :
    num_files entries =
      ((entries.filterMap (fun e => e.path.head?)).dedup.filter
        (fun n => endswith n ".mp4")).length := by
  unfold num_files mp4_files
  rw [length_pySorted, listdirWork_eq]
  have hm : endswith "music.mp3" ".mp4" = false := by decide
  by_cases h : "music.mp3" ∈ entries.filterMap (fun e => e.path.head?)
  · rw [List.dedup_cons_of_mem h]
  · rw [List.dedup_cons_of_not_mem h, List.filter_cons_of_neg (by simp [hm])]

/-- C9: the qualifying-input count passed as the first argument of the
external program equals the number of top-level entries of the working
directory whose names end in `.mp4` (case-sensitive): nested entries are not
counted, top-level directories with a `.mp4` name are, and the staged
`music.mp3` never qualifies. -/
theorem qualifying_count_top_level (entries : List ZipEntry) :
    num_files entries = qualifyingTopLevelCount entries :=
  num_files_eq entries

theorem num_files_eq_zero (entries : List ZipEntry)
    (hq : ∀ n ∈ entries.filterMap (fun e => e.path.head?),
      endswith n ".mp4" = false) :
    num_files entries = 0 := by
  rw [num_files_eq, List.length_eq_zero, List.filter_eq_nil_iff]
  intro n hn
  simp [hq n (List.mem_dedup.mp hn)]

/-- Progress events of the `try` block: everything it emits before its
outcome, none of which is a terminal write, a webhook call, a deletion
scheduling, a cleanup removal or an ingest file write. -/
def isStepEvent : Event → Bool
  | .writeProcessing _ => true
  | .extract => true
  | .spawn _ _ _ => true
  | _ => false

theorem isStepEvent_spec (e : Event) (h : isStepEvent e = true) :
    isTerminalWrite e = false ∧ e ≠ Event.removeWorkDir ∧ e ≠ Event.removeZip ∧
      e ≠ Event.saveZip ∧ e ≠ Event.webhook ∧
      (∀ p hrs, e ≠ Event.scheduleDeletion p hrs) := by
  cases e <;> simp_all [isStepEvent, isTerminalWrite]

/-- Event lists preceding the outcome in each branch of the `try` block. -/
def steps1 : List Event := [Event.writeProcessing ProcMsg.unpacking]

/-- Progress events once extraction has succeeded. -/
def steps2 : List Event := [Event.writeProcessing ProcMsg.unpacking, Event.extract]

/-- Progress events once the qualifying count is known and the music exists. -/
def steps3 (n : Nat) : List Event :=
  [Event.writeProcessing ProcMsg.unpacking, Event.extract,
   Event.writeProcessing (ProcMsg.processingFiles n)]

/-- Progress events once the external program has been spawned. -/
def steps4 (n : Nat) (mp : String) (f : Int) : List Event :=
  [Event.writeProcessing ProcMsg.unpacking, Event.extract,
   Event.writeProcessing (ProcMsg.processingFiles n), Event.spawn n mp f]

theorem stepEvents_one : ∀ e ∈ steps1, isStepEvent e = true := by
  intro e he
  simp only [steps1, List.mem_singleton] at he
  subst he; rfl

theorem stepEvents_two : ∀ e ∈ steps2, isStepEvent e = true := by
  intro e he
  simp only [steps2, List.mem_cons, List.not_mem_nil, or_false] at he
  rcases he with rfl | rfl <;> rfl

theorem stepEvents_three (n : Nat) : ∀ e ∈ steps3 n, isStepEvent e = true := by
  intro e he
  simp only [steps3, List.mem_cons, List.not_mem_nil, or_false] at he
  rcases he with rfl | rfl | rfl <;> rfl

theorem stepEvents_four (n : Nat) (mp : String) (f : Int) :
    ∀ e ∈ steps4 n mp f, isStepEvent e = true := by
  intro e he
  simp only [steps4, List.mem_cons, List.not_mem_nil, or_false] at he
  rcases he with rfl | rfl | rfl | rfl <;> rfl

/-- Exhaustive shape analysis of the `try`/`except` part: every run either
ends in exactly one `failed` write, or ends in the `success` write followed
immediately by the webhook call and the retention scheduling; everything
before the outcome is a progress event. -/
theorem tryBody_master (cfg : Config) (a : TaskArgs) (env : TaskEnv) :
    (∃ l m, tryBody cfg a env = l ++ [Event.writeFailed m] ∧
       ∀ e ∈ l, isStepEvent e = true) ∨
    (∃ l, tryBody cfg a env =
        l ++ [Event.writeSuccess (a.task_id ++ ".mp4") env.resultSize, Event.webhook,
              Event.scheduleDeletion (cfg.OUTPUT_DIR ++ "/" ++ a.task_id ++ ".mp4")
                cfg.FILE_RETENTION_HOURS] ∧
       (∀ e ∈ l, isStepEvent e = true) ∧ env.zipExists = true) := by
  by_cases hz : env.zipExists = true
  case neg =>
    exact Or.inl ⟨steps1, FailMsg.zipNotFound a.zip_path,
      by simp [tryBody, steps1, hz], stepEvents_one⟩
  by_cases hx : env.extractOk = true
  case neg =>
    exact Or.inl ⟨steps1, FailMsg.extractError env.extractExc,
      by simp [tryBody, steps1, hz, hx], stepEvents_one⟩
  by_cases hc1 : env.crash = some CrashSite.atListdir
  case pos =>
    exact Or.inl ⟨steps2, FailMsg.internalError env.crashMsg env.crashDetails,
      by simp [tryBody, crashHandler, steps2, hz, hx, hc1], stepEvents_two⟩
  by_cases hn : num_files env.entries = 0
  case pos =>
    exact Or.inl ⟨steps2, FailMsg.noMp4Files,
      by simp [tryBody, steps2, hz, hx, hc1, hn], stepEvents_two⟩
  by_cases hm : env.musicExists = true
  case neg =>
    exact Or.inl ⟨steps2, FailMsg.musicNotFound a.music_path,
      by simp [tryBody, steps2, hz, hx, hc1, hn, hm], stepEvents_two⟩
  by_cases hs : env.scriptExists = true
  case neg =>
    exact Or.inl ⟨steps3 (num_files env.entries), FailMsg.scriptNotFound cfg.SCRIPT_PATH,
      by simp [tryBody, steps3, hz, hx, hc1, hn, hm, hs],
      stepEvents_three (num_files env.entries)⟩
  by_cases hxe : env.scriptExecutable = true
  case neg =>
    exact Or.inl ⟨steps3 (num_files env.entries),
      FailMsg.scriptNotExecutable cfg.SCRIPT_PATH,
      by simp [tryBody, steps3, hz, hx, hc1, hn, hm, hs, hxe],
      stepEvents_three (num_files env.entries)⟩
  by_cases hc2 : env.crash = some CrashSite.atSpawn
  case pos =>
    exact Or.inl ⟨steps3 (num_files env.entries),
      FailMsg.internalError env.crashMsg env.crashDetails,
      by simp [tryBody, crashHandler, steps3, hz, hx, hc1, hn, hm, hs, hxe, hc2],
      stepEvents_three (num_files env.entries)⟩
  by_cases hc3 : env.crash = some CrashSite.atCommunicate
  case pos =>
    exact Or.inl ⟨steps4 (num_files env.entries) a.music_path a.fade_duration,
      FailMsg.internalError env.crashMsg env.crashDetails,
      by simp [tryBody, crashHandler, steps4, hz, hx, hc1, hn, hm, hs, hxe, hc2, hc3],
      stepEvents_four (num_files env.entries) a.music_path a.fade_duration⟩
  by_cases hr : env.returncode = 0
  case neg =>
    exact Or.inl ⟨steps4 (num_files env.entries) a.music_path a.fade_duration,
      FailMsg.processError env.returncode
        (if env.stderr ≠ "" then env.stderr else "Неизвестная ошибка"),
      by simp [tryBody, steps4, hz, hx, hc1, hn, hm, hs, hxe, hc2, hc3, hr],
      stepEvents_four (num_files env.entries) a.music_path a.fade_duration⟩
  by_cases hres : env.resultExists = true
  case neg =>
    exact Or.inl ⟨steps4 (num_files env.entries) a.music_path a.fade_duration,
      FailMsg.resultNotCreated env.filesAfterRun,
      by simp [tryBody, steps4, hz, hx, hc1, hn, hm, hs, hxe, hc2, hc3, hr, hres],
      stepEvents_four (num_files env.entries) a.music_path a.fade_duration⟩
  by_cases hc4 : env.crash = some CrashSite.atMove
  case pos =>
    exact Or.inl ⟨steps4 (num_files env.entries) a.music_path a.fade_duration,
      FailMsg.internalError env.crashMsg env.crashDetails,
      by simp [tryBody, crashHandler, steps4, hz, hx, hc1, hn, hm, hs, hxe, hc2, hc3,
        hr, hres, hc4],
      stepEvents_four (num_files env.entries) a.music_path a.fade_duration⟩
  by_cases hc5 : env.crash = some CrashSite.atGetsize
  case pos =>
    exact Or.inl ⟨steps4 (num_files env.entries) a.music_path a.fade_duration,
      FailMsg.internalError env.crashMsg env.crashDetails,
      by simp [tryBody, crashHandler, steps4, hz, hx, hc1, hn, hm, hs, hxe, hc2, hc3,
        hr, hres, hc4, hc5],
      stepEvents_four (num_files env.entries) a.music_path a.fade_duration⟩
  exact Or.inr ⟨steps4 (num_files env.entries) a.music_path a.fade_duration,
    by simp [tryBody, steps4, hz, hx, hc1, hn, hm, hs, hxe, hc2, hc3, hr, hres, hc4, hc5],
    stepEvents_four (num_files env.entries) a.music_path a.fade_duration, hz⟩

theorem finallyPart_not_terminal (env : TaskEnv) :
    ∀ e ∈ finallyPart env, isTerminalWrite e = false := by
  intro e he
  unfold finallyPart at he
  by_cases hz : env.zipExists = true <;>
    simp only [hz, if_pos, if_neg, List.mem_append, List.mem_singleton,
      List.not_mem_nil, or_false, if_true, if_false, Bool.not_eq_true] at he
  · rcases he with rfl | rfl <;> rfl
  · subst he; rfl

theorem countP_terminal_steps {l : List Event} (h : ∀ e ∈ l, isStepEvent e = true) :
    l.countP isTerminalWrite = 0 :=
  List.countP_eq_zero.mpr fun e he => by
    simp [(isStepEvent_spec e (h e he)).1]

theorem countP_terminal_tryBody (cfg : Config) (a : TaskArgs) (env : TaskEnv) :
    (tryBody cfg a env).countP isTerminalWrite = 1 := by
  rcases tryBody_master cfg a env with ⟨l, m, heq, hstep⟩ | ⟨l, heq, hstep, _⟩ <;>
    rw [heq, List.countP_append, countP_terminal_steps hstep] <;> rfl

theorem countP_terminal_finallyPart (env : TaskEnv) :
    (finallyPart env).countP isTerminalWrite = 0 :=
  List.countP_eq_zero.mpr fun e he => by
    simp [finallyPart_not_terminal env e he]

/-- C2: over the whole run of a job, ingest included, exactly one terminal
status write (`success` or `failed`) occurs, on every execution path,
including the paths where an unexpected exception is raised mid-processing
(every value of `env.crash`). -/
theorem exactly_one_terminal_write (cfg : Config) (a : TaskArgs) (env : TaskEnv)
    (musicContent : String) :
    (jobTrace cfg a env musicContent).countP isTerminalWrite = 1 := by
  unfold jobTrace process_video_task
  rw [List.countP_append, List.countP_append, countP_terminal_tryBody,
    countP_terminal_finallyPart]
  rfl

theorem workDirExistsAfter_append_finally (l : List Event) (env : TaskEnv) :
    workDirExistsAfter (l ++ finallyPart env) = false := by
  unfold workDirExistsAfter finallyPart
  rw [List.foldl_append]
  by_cases hz : env.zipExists = true <;> simp [hz]

theorem zipExistsAfter_no_save {l : List Event}
    (h : ∀ e ∈ l, e ≠ Event.saveZip) : zipExistsAfter false l = false := by
  induction l with
  | nil => rfl
  | cons e l ih =>
    unfold zipExistsAfter at ih ⊢
    rw [List.foldl_cons]
    have hrest := ih fun e2 he2 => h e2 (by simp [he2])
    have he : e ≠ Event.saveZip := h e (by simp)
    cases e <;> simp_all

theorem tryBody_no_save_or_removal (cfg : Config) (a : TaskArgs) (env : TaskEnv) :
    ∀ e ∈ tryBody cfg a env,
      e ≠ Event.saveZip ∧ e ≠ Event.removeWorkDir ∧ e ≠ Event.removeZip := by
  intro e he
  rcases tryBody_master cfg a env with ⟨l, m, heq, hstep⟩ | ⟨l, heq, hstep, _⟩ <;>
    rw [heq] at he <;>
    rcases List.mem_append.mp he with hl | hr
  · have := isStepEvent_spec e (hstep e hl)
    exact ⟨this.2.2.2.1, this.2.1, this.2.2.1⟩
  · simp only [List.mem_singleton] at hr
    subst hr
    refine ⟨?_, ?_, ?_⟩ <;> intro hcontra <;> cases hcontra
  · have := isStepEvent_spec e (hstep e hl)
    exact ⟨this.2.2.2.1, this.2.1, this.2.2.1⟩
  · simp only [List.mem_cons, List.not_mem_nil, or_false] at hr
    rcases hr with rfl | rfl | rfl <;>
      refine ⟨?_, ?_, ?_⟩ <;> intro hcontra <;> cases hcontra

theorem zipExistsAfter_run (cfg : Config) (a : TaskArgs) (env : TaskEnv) :
    zipExistsAfter env.zipExists (process_video_task cfg a env) = false := by
  unfold process_video_task
  by_cases hz : env.zipExists = true
  · unfold zipExistsAfter finallyPart
    rw [List.foldl_append]
    simp [hz]
  · have hz2 : env.zipExists = false := by
      cases h : env.zipExists
      · rfl
      · exact absurd h hz
    rw [hz2]
    apply zipExistsAfter_no_save
    intro e he
    rcases List.mem_append.mp he with hl | hr
    · exact (tryBody_no_save_or_removal cfg a env e hl).1
    · unfold finallyPart at hr
      simp only [hz2, List.mem_append, List.mem_singleton, Bool.false_eq_true,
        if_false, List.not_mem_nil, or_false] at hr
      subst hr
      intro hcontra; cases hcontra

/-- C1: whenever a run contains a terminal status write, the working
directory and the staged ZIP archive no longer exist once the run is over,
and the removals happen after the terminal write: the trace splits into a
part containing the terminal write and no removal, followed by the cleanup
part that removes the working directory and, whenever the archive still
exists, the archive. -/
theorem terminal_cleanup_unconditional (cfg : Config) (a : TaskArgs)
    (env : TaskEnv)
    (_h : ∃ e ∈ process_video_task cfg a env, isTerminalWrite e = true) :
    workDirExistsAfter (process_video_task cfg a env) = false ∧
    zipExistsAfter env.zipExists (process_video_task cfg a env) = false ∧
    ∃ l1 l2, process_video_task cfg a env = l1 ++ l2 ∧
      (∃ e ∈ l1, isTerminalWrite e = true) ∧
      (∀ e ∈ l1, e ≠ Event.removeWorkDir ∧ e ≠ Event.removeZip) ∧
      Event.removeWorkDir ∈ l2 ∧
      (env.zipExists = true → Event.removeZip ∈ l2) := by
  refine ⟨workDirExistsAfter_append_finally _ env, zipExistsAfter_run cfg a env,
    tryBody cfg a env, finallyPart env, rfl, ?_, ?_, ?_, ?_⟩
  · rcases tryBody_master cfg a env with ⟨l, m, heq, _⟩ | ⟨l, heq, _, _⟩
    · exact ⟨Event.writeFailed m, by simp [heq], rfl⟩
    · exact ⟨Event.writeSuccess (a.task_id ++ ".mp4") env.resultSize,
        by simp [heq], rfl⟩
  · intro e he
    exact (tryBody_no_save_or_removal cfg a env e he).2
  · unfold finallyPart; simp
  · intro hz; unfold finallyPart; simp [hz]

theorem finallyPart_mem (env : TaskEnv) :
    ∀ e ∈ finallyPart env, e = Event.removeWorkDir ∨ e = Event.removeZip := by
  intro e he
  unfold finallyPart at he
  by_cases hz : env.zipExists = true <;>
    simp only [hz, List.mem_append, List.mem_singleton, List.not_mem_nil,
      if_true, if_false, Bool.false_eq_true, or_false] at he
  · tauto
  · exact Or.inl he

/-- C3 (amended): the webhook call and the deferred-deletion scheduling occur
only on the success path; when they occur, the run ends with the terminal
`success` write immediately followed by the webhook call, the retention
scheduling, and only then the cleanup of the working directory and of the
staged archive — i.e. both run after the terminal write but before cleanup,
and nothing before the success write is a terminal write, a webhook call, a
scheduling or a removal. -/
theorem notify_and_schedule_after_write_before_cleanup (cfg : Config)
    (a : TaskArgs) (env : TaskEnv)
    (h : Event.webhook ∈ process_video_task cfg a env ∨
      ∃ p hrs, Event.scheduleDeletion p hrs ∈ process_video_task cfg a env) :
    ∃ l, process_video_task cfg a env =
        l ++ [Event.writeSuccess (a.task_id ++ ".mp4") env.resultSize, Event.webhook,
              Event.scheduleDeletion (cfg.OUTPUT_DIR ++ "/" ++ a.task_id ++ ".mp4")
                cfg.FILE_RETENTION_HOURS,
              Event.removeWorkDir, Event.removeZip] ∧
      ∀ e ∈ l, isStepEvent e = true := by
  rcases tryBody_master cfg a env with ⟨l, m, heq, hstep⟩ | ⟨l, heq, hstep, hz⟩
  · exfalso
    have hne : ∀ e ∈ process_video_task cfg a env,
        e ≠ Event.webhook ∧ ∀ p hrs, e ≠ Event.scheduleDeletion p hrs := by
      intro e he
      unfold process_video_task at he
      rcases List.mem_append.mp he with hl | hr
      · rw [heq] at hl
        rcases List.mem_append.mp hl with hll | hlr
        · have := isStepEvent_spec e (hstep e hll)
          exact ⟨this.2.2.2.2.1, this.2.2.2.2.2⟩
        · simp only [List.mem_singleton] at hlr
          subst hlr
          exact ⟨(by intro hco; cases hco), (by intro p hrs hco; cases hco)⟩
      · rcases finallyPart_mem env e hr with rfl | rfl
        · exact ⟨(by intro hco; cases hco), (by intro p hrs hco; cases hco)⟩
        · exact ⟨(by intro hco; cases hco), (by intro p hrs hco; cases hco)⟩
    rcases h with hw | ⟨p, hrs, hsd⟩
    · exact (hne _ hw).1 rfl
    · exact (hne _ hsd).2 p hrs rfl
  · refine ⟨l, ?_, hstep⟩
    unfold process_video_task finallyPart
    rw [heq, hz]
    simp

/-- Concrete task arguments used for witnesses and counterexamples. -/
def argsX : TaskArgs :=
  { task_id := "t1", zip_path := "./temp/t1.zip",
    music_path := "./temp/t1/music.mp3", fade_duration := 3,
    work_dir := "./temp/t1" }

/-- A small archive with two qualifying clips. -/
def entriesOk : List ZipEntry :=
  [ { path := ["001.mp4"], content := "v1", isDir := false },
    { path := ["002.mp4"], content := "v2", isDir := false } ]

/-- An environment in which everything succeeds. -/
def envOk : TaskEnv :=
  { zipExists := true, extractOk := true, extractExc := "",
    entries := entriesOk, musicExists := true, scriptExists := true,
    scriptExecutable := true, crash := none, crashMsg := "",
    crashDetails := "", returncode := 0, stderr := "", resultExists := true,
    filesAfterRun := ["001.mp4", "002.mp4", "music.mp3", "result.mp4"],
    resultSize := 1000 }

/-- C3 (counterexample): on a fully successful run the webhook call and the
retention scheduling both occur strictly before the cleanup removals of the
working directory and of the staged archive, so the claim that they happen
after cleanup is false on this input. -/
theorem notify_before_cleanup_cex :
    Event.webhook ∈ process_video_task cfgDefault argsX envOk ∧
    Event.scheduleDeletion "./output/t1.mp4" 1 ∈
      process_video_task cfgDefault argsX envOk ∧
    Event.removeWorkDir ∈ process_video_task cfgDefault argsX envOk ∧
    Event.removeZip ∈ process_video_task cfgDefault argsX envOk ∧
    (process_video_task cfgDefault argsX envOk).indexOf Event.webhook <
      (process_video_task cfgDefault argsX envOk).indexOf Event.removeWorkDir ∧
    (process_video_task cfgDefault argsX envOk).indexOf
        (Event.scheduleDeletion "./output/t1.mp4" 1) <
      (process_video_task cfgDefault argsX envOk).indexOf Event.removeWorkDir ∧
    (process_video_task cfgDefault argsX envOk).indexOf Event.removeWorkDir <
      (process_video_task cfgDefault argsX envOk).indexOf Event.removeZip := by
  decide

/-- Witness for the amended C3 theorem at the all-success environment. -/
theorem notify_and_schedule_witness :
    ∃ l, process_video_task cfgDefault argsX envOk =
        l ++ [Event.writeSuccess ("t1" ++ ".mp4") 1000, Event.webhook,
              Event.scheduleDeletion ("./output" ++ "/" ++ "t1" ++ ".mp4") 1,
              Event.removeWorkDir, Event.removeZip] ∧
      ∀ e ∈ l, isStepEvent e = true :=
  notify_and_schedule_after_write_before_cleanup cfgDefault argsX envOk
    (Or.inl (by decide))

/-- Witness for C1 at the all-success environment. -/
theorem terminal_cleanup_witness :
    workDirExistsAfter (process_video_task cfgDefault argsX envOk) = false ∧
    zipExistsAfter envOk.zipExists (process_video_task cfgDefault argsX envOk) =
      false ∧
    ∃ l1 l2, process_video_task cfgDefault argsX envOk = l1 ++ l2 ∧
      (∃ e ∈ l1, isTerminalWrite e = true) ∧
      (∀ e ∈ l1, e ≠ Event.removeWorkDir ∧ e ≠ Event.removeZip) ∧
      Event.removeWorkDir ∈ l2 ∧
      (envOk.zipExists = true → Event.removeZip ∈ l2) :=
  terminal_cleanup_unconditional cfgDefault argsX envOk
    ⟨Event.writeSuccess "t1.mp4" 1000, by decide, by decide⟩

/-- C6: when the external program exits 0 but `result.mp4` is absent from the
working directory, the job ends in a `failed` write whose message is the
missing-artifact message carrying the directory listing taken at that moment,
a failure kind distinct from the nonzero-exit one; cleanup still follows. -/
theorem missing_artifact_distinct_failure (cfg : Config) (a : TaskArgs)
    (env : TaskEnv)
    (hz : env.zipExists = true) (hx : env.extractOk = true)
    (hc : env.crash = none) (hn : num_files env.entries ≠ 0)
    (hm : env.musicExists = true) (hs : env.scriptExists = true)
    (hxe : env.scriptExecutable = true) (hr : env.returncode = 0)
    (hres : env.resultExists = false) :
    process_video_task cfg a env =
      steps4 (num_files env.entries) a.music_path a.fade_duration ++
        [Event.writeFailed (FailMsg.resultNotCreated env.filesAfterRun),
         Event.removeWorkDir, Event.removeZip] ∧
    (∀ code msg, FailMsg.resultNotCreated env.filesAfterRun ≠
      FailMsg.processError code msg) := by
  constructor
  · simp [process_video_task, tryBody, finallyPart, steps4,
      hz, hx, hc, hn, hm, hs, hxe, hr, hres]
  · intro code msg hco
    cases hco

/-- Environment in which the program reports success but leaves no artifact. -/
def envNoArtifact : TaskEnv :=
  { envOk with
    resultExists := false
    filesAfterRun := ["001.mp4", "002.mp4", "music.mp3"] }

/-- Witness for C6: program exits 0 with no `result.mp4` in the working
directory. -/
theorem missing_artifact_witness :
    process_video_task cfgDefault argsX envNoArtifact =
      steps4 (num_files envNoArtifact.entries) "./temp/t1/music.mp3" 3 ++
        [Event.writeFailed
          (FailMsg.resultNotCreated ["001.mp4", "002.mp4", "music.mp3"]),
         Event.removeWorkDir, Event.removeZip] ∧
    (∀ code msg, FailMsg.resultNotCreated ["001.mp4", "002.mp4", "music.mp3"] ≠
      FailMsg.processError code msg) :=
  missing_artifact_distinct_failure cfgDefault argsX envNoArtifact
    rfl rfl rfl (by decide) rfl rfl rfl rfl rfl

/-- C7: when the staged archive yields no qualifying (top-level `.mp4`)
entries, the run writes exactly one terminal `failed` status with the
no-`.mp4`-files error, cleans up, and never spawns the external program. -/
theorem zero_qualifying_entries_failure (cfg : Config) (a : TaskArgs)
    (env : TaskEnv)
    (hz : env.zipExists = true) (hx : env.extractOk = true)
    (hc1 : env.crash ≠ some CrashSite.atListdir)
    (hq : ∀ n ∈ env.entries.filterMap (fun e => e.path.head?),
      endswith n ".mp4" = false) :
    process_video_task cfg a env =
      steps2 ++ [Event.writeFailed FailMsg.noMp4Files,
                 Event.removeWorkDir, Event.removeZip] ∧
    ∀ n mp f, Event.spawn n mp f ∉ process_video_task cfg a env := by
  have hn := num_files_eq_zero env.entries hq
  have heq : process_video_task cfg a env =
      steps2 ++ [Event.writeFailed FailMsg.noMp4Files,
                 Event.removeWorkDir, Event.removeZip] := by
    simp [process_video_task, tryBody, finallyPart, steps2, hz, hx, hc1, hn]
  refine ⟨heq, ?_⟩
  intro n mp f hmem
  rw [heq] at hmem
  simp only [steps2, List.mem_append, List.mem_cons, List.mem_singleton,
    List.not_mem_nil, or_false] at hmem
  rcases hmem with (hco | hco) | hco | hco | hco <;> cases hco

/-- Archive with a nested clip and a non-qualifying top-level file only. -/
def entriesNested : List ZipEntry :=
  [ { path := ["clips", "001.mp4"], content := "v1", isDir := false },
    { path := ["readme.txt"], content := "hi", isDir := false } ]

/-- Environment whose archive has zero qualifying entries. -/
def envNoMp4 : TaskEnv := { envOk with entries := entriesNested }

/-- Witness for C7: nested `.mp4` files do not qualify, so the job fails with
the no-qualifying-files error and never spawns the program. -/
theorem zero_qualifying_witness :
    process_video_task cfgDefault argsX envNoMp4 =
      steps2 ++ [Event.writeFailed FailMsg.noMp4Files,
                 Event.removeWorkDir, Event.removeZip] ∧
    ∀ n mp f, Event.spawn n mp f ∉ process_video_task cfgDefault argsX envNoMp4 :=
  zero_qualifying_entries_failure cfgDefault argsX envNoMp4
    rfl rfl (by decide) (by decide)

/-- C4 (the code violates the claim): `save_task_status` rebuilds the whole
record on every call with `created_at = datetime.now().isoformat()`, so a
second status write at time 100 overwrites the `created_at` that the first
persistence set at time 0. -/
theorem created_at_restamped_on_every_write :
    (runStatusWrites cfgDefault "job-1"
        [(0, Status.pending), (100, Status.success)]).map
      (fun e => e.value.created_at) = some 100 ∧
    (runStatusWrites cfgDefault "job-1"
        [(0, Status.pending), (100, Status.success)]).map
      (fun e => e.value.created_at) ≠ some 0 := by
  decide

/-- C5 (counterexample): with the default retention of 1 hour, a record
created (first persisted) at time 0 and rewritten at time 3600 has its expiry
reset to 10800, strictly later than creation plus retention plus one hour
(7200), so the record is not evicted within `retentionWindow + 1h` of its
creation. -/
theorem record_lifetime_bound_cex :
    runStatusWrites cfgDefault "job-1"
        [(0, Status.pending), (3600, Status.success)] =
      some { value := { task_id := "job-1", status := Status.success,
                        created_at := 3600 },
             expiry := 10800 } ∧
    10800 > 0 + (cfgDefault.FILE_RETENTION_HOURS + 1) * 3600 := by
  decide

/-- C5 (amended): each `save_task_status` call resets the record expiry, so
after any nonempty sequence of writes the record is evicted exactly
`retentionWindow + 1h` after the LAST write — the lifetime is bounded from
the most recent write, not from creation. -/
theorem record_expiry_from_last_write (cfg : Config) (tid : String)
    (earlier : List (Nat × Status)) (last : Nat × Status) :
    runStatusWrites cfg tid (earlier ++ [last]) =
      some (save_task_status cfg last.1 tid last.2) ∧
    (save_task_status cfg last.1 tid last.2).expiry =
      last.1 + (cfg.FILE_RETENTION_HOURS + 1) * 3600 := by
  constructor
  · unfold runStatusWrites
    rw [List.foldl_append]
    rfl
  · rfl

/-- C8: an ingest request whose `fade_duration` field parses (as Python `int`
does) to a value outside `[0, 10]` is rejected before any job id, working
directory, saved file, status record or background task is created; a request
whose field is absent or unparseable gets the default 3 and proceeds whenever
the file checks pass. -/
theorem fade_duration_validation :
    (∀ form n, pyInt (form.fade_duration.getD "3") = some n →
      (n < 0 ∨ 10 < n) →
      ∃ code det, process_video form = (IngestResult.rejected code det, [])) ∧
    (∀ form v au, form.video = some v → form.audio = some au →
      endswith v.filename ".zip" = true → endswith au.filename ".mp3" = true →
      (pyInt (form.fade_duration.getD "3") = none ∨ form.fade_duration = none) →
      process_video form =
        (IngestResult.accepted,
         [IngestEffect.createTaskId, IngestEffect.makeWorkDir,
          IngestEffect.saveZipFile, IngestEffect.saveMusicFile,
          IngestEffect.savePendingStatus,
          IngestEffect.scheduleBackgroundTask 3])) := by
  constructor
  · intro form n hp hrange
    unfold process_video
    cases hv : form.video with
    | none => exact ⟨400, "Не загружен файл video", rfl⟩
    | some v =>
      cases ha : form.audio with
      | none => exact ⟨400, "Не загружен файл audio", rfl⟩
      | some au =>
        by_cases hvz : endswith v.filename ".zip" = true
        case neg =>
          exact ⟨400, "Файл video должен быть ZIP архивом", by simp [hvz]⟩
        by_cases haz : endswith au.filename ".mp3" = true
        case neg =>
          exact ⟨400, "Файл audio должен быть в формате MP3", by simp [hvz, haz]⟩
        refine ⟨400, "Длительность затухания должна быть от 0 до 10 секунд", ?_⟩
        simp [hvz, haz, hp, hrange]
  · intro form v au hv ha hvz haz habs
    unfold process_video
    rw [hv, ha]
    have h3 : (pyInt (form.fade_duration.getD "3")).getD 3 = 3 := by
      rcases habs with hnone | habsent
      · rw [hnone]; rfl
      · rw [habsent]
        decide
    simp [hvz, haz, h3]

/-- Form with an out-of-range fade value. -/
def formBadFade : FormData :=
  { video := some { filename := "clips.zip" },
    audio := some { filename := "music.mp3" },
    fade_duration := some "15" }

/-- Form with the fade field absent. -/
def formNoFade : FormData :=
  { video := some { filename := "clips.zip" },
    audio := some { filename := "music.mp3" },
    fade_duration := none }

/-- Witness for C8: `fade_duration=15` is rejected with no effects, an absent
`fade_duration` defaults to 3 and the request is accepted. -/
theorem fade_duration_validation_witness :
    (∃ code det, process_video formBadFade = (IngestResult.rejected code det, [])) ∧
    process_video formNoFade =
      (IngestResult.accepted,
       [IngestEffect.createTaskId, IngestEffect.makeWorkDir,
        IngestEffect.saveZipFile, IngestEffect.saveMusicFile,
        IngestEffect.savePendingStatus,
        IngestEffect.scheduleBackgroundTask 3]) :=
  ⟨fade_duration_validation.1 formBadFade 15 (by decide) (by decide),
   fade_duration_validation.2 formNoFade { filename := "clips.zip" }
     { filename := "music.mp3" } rfl rfl (by decide) (by decide) (Or.inr rfl)⟩

theorem foldl_lastWrite (p : List String) (ws : List (List String × String))
    (a : Option String) :
    ws.foldl (fun acc w => if w.1 = p then some w.2 else acc) a =
      match ws.foldl (fun acc w => if w.1 = p then some w.2 else acc) none with
      | some c => some c
      | none => a := by
  induction ws generalizing a with
  | nil => rfl
  | cons w ws ih =>
    rw [List.foldl_cons, List.foldl_cons]
    by_cases hw : w.1 = p
    · rw [if_pos hw, if_pos hw, ih (some w.2)]
      cases ws.foldl (fun acc v => if v.1 = p then some v.2 else acc) none <;> rfl
    · rw [if_neg hw, if_neg hw]
      exact ih a

/-- C10: the uploaded music is saved to `music.mp3` inside the working
directory at ingest, before the background task extracts the archive into the
same directory (the job trace begins with the two ingest file writes, the
`pending` write, the first `processing` write and only then extraction), so
when the archive itself carries a top-level `music.mp3` of content `c`, the
staged auxiliary input is replaced: after staging the file holds `c`, not the
uploaded content. -/
theorem music_staged_before_extraction (cfg : Config) (a : TaskArgs)
    (env : TaskEnv) (musicContent c : String)
    (hz : env.zipExists = true) (hx : env.extractOk = true)
    (hc : archiveTopContent env.entries "music.mp3" = some c) :
    (jobTrace cfg a env musicContent).take 5 =
      [Event.saveZip, Event.saveMusic musicContent, Event.writePending,
       Event.writeProcessing ProcMsg.unpacking, Event.extract] ∧
    stagedContentAt musicContent env.entries ["music.mp3"] = some c := by
  constructor
  · simp [jobTrace, process_video_task, tryBody, hz, hx]
  · unfold stagedContentAt
    rw [List.foldl_cons]
    unfold archiveTopContent at hc
    rw [foldl_lastWrite, hc]

/-- Archive carrying its own top-level `music.mp3` next to a clip. -/
def entriesWithMusic : List ZipEntry :=
  [ { path := ["music.mp3"], content := "archive-music", isDir := false },
    { path := ["001.mp4"], content := "v1", isDir := false } ]

/-- Environment whose archive overrides the staged auxiliary input. -/
def envMusic : TaskEnv := { envOk with entries := entriesWithMusic }

/-- Witness for C10: with an archive carrying `music.mp3`, staging ends with
the archive content, not the uploaded one, and the trace shows the music
write before extraction. -/
theorem music_staged_witness :
    (jobTrace cfgDefault argsX envMusic "uploaded-music").take 5 =
      [Event.saveZip, Event.saveMusic "uploaded-music", Event.writePending,
       Event.writeProcessing ProcMsg.unpacking, Event.extract] ∧
    stagedContentAt "uploaded-music" entriesWithMusic ["music.mp3"] =
      some "archive-music" :=
  music_staged_before_extraction cfgDefault argsX envMusic
    "uploaded-music" "archive-music" rfl rfl (by decide)
